import Mathlib

/-!
Verification of the prescription-field extraction pipeline of the
Mistral-OCR repository.  The Python sources are shallowly embedded:
regular-expression searches become explicit scanning functions over
`List Char`, Python dictionaries become association lists over `String`
keys, and Python's dynamically typed values become the `Value` type.
Every definition carries a doc comment naming the Python function (and,
for pattern matchers, the regular expression) it embeds.
-/

namespace MistralOCR

/-- Model of a dynamically typed Python value as it flows through the
extraction pipeline: `None`, a string, an `int`, or a `bool`. -/
inductive Value where
  | vnone : Value
  | vstr (s : String) : Value
  | vint (n : Int) : Value
  | vbool (b : Bool) : Value
  deriving DecidableEq, Repr

/-- Python `\s` / `str.strip` whitespace: space, tab, newline, carriage
return, vertical tab, form feed. -/
def pyIsSpace (c : Char) : Bool :=
  c == ' ' || c == '\t' || c == '\n' || c == '\r' || c == '\x0b' || c == '\x0c'

/-- Python `str.strip()` on a character list. -/
def pyStripList (s : List Char) : List Char :=
  ((s.dropWhile pyIsSpace).reverse.dropWhile pyIsSpace).reverse

/-- Python `str.strip()`. -/
def pyStrip (s : String) : String :=
  String.mk (pyStripList s.toList)

/-- Python truthiness (`bool(v)`): `None` and `False` are falsy, a string
is truthy iff non-empty (no trimming), an int iff non-zero. -/
def pyTruthy : Value → Bool
  | Value.vnone => false
  | Value.vstr s => !(s.isEmpty)
  | Value.vint n => !(n == 0)
  | Value.vbool b => b

/-- Python `str(v)`. -/
def pyStr : Value → String
  | Value.vnone => "None"
  | Value.vstr s => s
  | Value.vint n => toString n
  | Value.vbool b => if b then "True" else "False"

/-- Digits of a decimal literal to a natural number. -/
def digitsToNat (ds : List Char) : Nat :=
  ds.foldl (fun acc c => acc * 10 + (c.toNat - 48)) 0

/-- Python `int(s)` on a string: strip whitespace, optional sign, at least
one decimal digit; anything else raises `ValueError`, modelled as
`Option.none`. -/
def pyParseInt (s : String) : Option Int :=
  match pyStripList s.toList with
  | [] => Option.none
  | c :: rest =>
    let signedDigits : Int × List Char :=
      if c == '-' then (-1, rest) else if c == '+' then (1, rest) else (1, c :: rest)
    if signedDigits.2 ≠ [] ∧ signedDigits.2.all Char.isDigit then
      some (signedDigits.1 * (digitsToNat signedDigits.2 : Int))
    else Option.none

/-- Python `int(v)` on a value: ints pass through, bools become 0/1,
strings are parsed, `int(None)` raises `TypeError` (modelled `none`). -/
def pyIntOfValue : Value → Option Int
  | Value.vnone => Option.none
  | Value.vstr s => pyParseInt s
  | Value.vint n => some n
  | Value.vbool b => some (if b then 1 else 0)

/-- Character class `\w` (ASCII reading). -/
def isWordChar (c : Char) : Bool := c.isAlphanum || c == '_'

/-- Character class `[A-Za-z]`; with `re.IGNORECASE` the source classes
`[A-Z]` and `[a-z]` both match any ASCII letter. -/
def isLetterChar (c : Char) : Bool := c.isAlpha

/-- Character class `[:\-\s]`, the label separator used throughout. -/
def isSepChar (c : Char) : Bool := c == ':' || c == '-' || pyIsSpace c

/-- Case-insensitive character comparison (`re.IGNORECASE`). -/
def charCI (a b : Char) : Bool := a.toLower == b.toLower

/-- Match a literal string case-insensitively at the head of the input,
returning the rest on success. -/
def chompLit : List Char → List Char → Option (List Char)
  | [], s => some s
  | _ :: _, [] => Option.none
  | p :: ps, c :: cs => if charCI p c then chompLit ps cs else Option.none

/-- Greedy `p*`: split off the maximal run satisfying the class. -/
def chompWhile (p : Char → Bool) (s : List Char) : List Char × List Char :=
  (s.takeWhile p, s.dropWhile p)

/-- Greedy `p+`: the maximal run, requiring at least one character. -/
def chomp1 (p : Char → Bool) (s : List Char) : Option (List Char × List Char) :=
  match s.takeWhile p with
  | [] => Option.none
  | run => some (run, s.dropWhile p)

/-- One character of a class (`p` exactly once). -/
def chompOne (p : Char → Bool) : List Char → Option (Char × List Char)
  | [] => Option.none
  | c :: rest => if p c then some (c, rest) else Option.none

/-- Backtracking core of bounded repetition: try run lengths `n`,
`n - 1`, ..., `lo`, feeding each split of the input to the
continuation. -/
def repRangeTry (lo : Nat) (k : List Char → List Char → Option α) (s : List Char) :
    Nat → Option α
  | 0 => if lo = 0 then k [] s else Option.none
  | n + 1 =>
    if n + 1 < lo then Option.none
    else
      match k (s.take (n + 1)) (s.drop (n + 1)) with
      | some a => some a
      | Option.none => repRangeTry lo k s n

/-- Bounded greedy repetition `p{lo,hi}` with backtracking: try the
longest admissible run first, then shorter ones. -/
def repRange (lo hi : Nat) (p : Char → Bool) (k : List Char → List Char → Option α)
    (s : List Char) : Option α :=
  repRangeTry lo k s ((s.takeWhile p).take hi).length

/-- Leftmost search (`re.search`): try the anchored matcher at every
suffix, earliest start wins. -/
def reSearch (anchor : List Char → Option α) : List Char → Option α
  | [] => anchor []
  | c :: rest =>
    match anchor (c :: rest) with
    | some a => some a
    | Option.none => reSearch anchor rest

/-- Leftmost search that also tracks the previous character, for patterns
using the word-boundary assertion. -/
def reSearchPrev (anchor : Option Char → List Char → Option α) :
    Option Char → List Char → Option α
  | prev, [] => anchor prev []
  | prev, c :: rest =>
    match anchor prev (c :: rest) with
    | some a => some a
    | Option.none => reSearchPrev anchor (some c) rest

/-- Lazy `.*?` followed by a continuation: try the continuation after
consuming ever longer (non-newline) prefixes; the consumed prefix is
passed to the continuation as well (for captures spanning the dots). -/
def lazyDotGo (k : List Char → List Char → Option α) (acc : List Char) :
    List Char → Option α
  | [] => k acc.reverse []
  | c :: rest =>
    match k acc.reverse (c :: rest) with
    | some a => some a
    | Option.none => if c == '\n' then Option.none else lazyDotGo k (c :: acc) rest

/-- Lazy `.*?` with continuation, starting with an empty consumed prefix. -/
def lazyDot (k : List Char → List Char → Option α) (s : List Char) : Option α :=
  lazyDotGo k [] s

/-- Capture of a lazy group delimited by `(?:\n|$)` (as in the source's
`(.*?)(?:\n|$)` tails): everything up to the first newline or the end of
the text. -/
def captureToLineEnd (s : List Char) : List Char :=
  s.takeWhile (fun c => !(c == '\n'))

/-- Whether the remaining text satisfies the Python `$` assertion (end of
string, or just before a final newline). -/
def atDollar : List Char → Bool
  | [] => true
  | ['\n'] => true
  | _ => false

/-- Non-overlapping leftmost iteration (`re.finditer`): collect every
match of the anchored matcher, resuming after each match (the matcher
returns its payload and the unconsumed rest); fuelled by the text length,
which suffices because every source pattern consumes at least one
character. -/
def reFindIterGo (anchor : List Char → Option (α × List Char)) :
    Nat → List Char → List α
  | 0, _ => []
  | _ + 1, [] => []
  | fuel + 1, c :: rest =>
    match anchor (c :: rest) with
    | some (a, rem) =>
      if rem.length < rest.length + 1 then a :: reFindIterGo anchor fuel rem
      else a :: reFindIterGo anchor fuel rest
    | Option.none => reFindIterGo anchor fuel rest

/-- Entry point for `re.finditer`. -/
def reFindIter (anchor : List Char → Option (α × List Char)) (s : List Char) :
    List α :=
  reFindIterGo anchor s.length s

/-- A dictionary as used by the Python code: an association list over
string keys (insertion-ordered, unique keys). -/
abbrev PyDict := List (String × Value)

/-- Python `d[k] = v` on a dict whose shape we track explicitly: replace
the first binding of `k`, or append a fresh one. -/
def setKey : PyDict → String → Value → PyDict
  | [], k, v => [(k, v)]
  | (k0, v0) :: rest, k, v =>
    if k0 == k then (k0, v) :: rest else (k0, v0) :: setKey rest k v

/-- Python `d.update(u)`. -/
def dictUpdate (d u : PyDict) : PyDict :=
  u.foldl (fun acc kv => setKey acc kv.1 kv.2) d

/-- Python `d.get(k)` (default `None`). -/
def dictGetNone (d : PyDict) (k : String) : Value :=
  match d.lookup k with
  | some v => v
  | Option.none => Value.vnone

/-- Python `d.get(k, "")`. -/
def dictGetEmpty (d : PyDict) (k : String) : Value :=
  match d.lookup k with
  | some v => v
  | Option.none => Value.vstr ""

/-- First alternative of a list that succeeds (regex alternation order). -/
def firstSomeList (f : β → Option α) : List β → Option α
  | [] => Option.none
  | b :: bs =>
    match f b with
    | some a => some a
    | Option.none => firstSomeList f bs

/-- Alternation of case-insensitive literals, returning the matched input
characters (case preserved, as `match.group` does) and the rest. -/
def altCap (alts : List String) (s : List Char) : Option (List Char × List Char) :=
  firstSomeList
    (fun alt =>
      match chompLit alt.toList s with
      | some r => some (s.take alt.length, r)
      | Option.none => Option.none) alts

/-- Optional single character of a class (`p?`, greedy); safe to commit
here because in every use site the following atom is from a disjoint
class. -/
def optOne (p : Char → Bool) : List Char → List Char × List Char
  | [] => ([], [])
  | c :: rest => if p c then ([c], rest) else ([], c :: rest)

/-- Whether no word character starts the rest (the right half of a `\b`
assertion). -/
def noWordAt : List Char → Bool
  | [] => true
  | c :: _ => !(isWordChar c)

/-- Whether the previous character admits a word boundary. -/
def prevNoWord : Option Char → Bool
  | Option.none => true
  | some c => !(isWordChar c)

namespace PFE
/-!  Embedding of `src/prescription_field_extractor.py`
(`PrescriptionFieldExtractor`).  -/

/-- Field semantic types of the schema. -/
inductive FieldType where
  | string | text | date | integer | boolean
  deriving DecidableEq, Repr

/-- One schema entry: type, optional max length, required flag. -/
structure FieldSpec where
  ftype : FieldType
  max_length : Option Nat
  required : Bool
  deriving DecidableEq, Repr

/-- The schema dictionary built in `PrescriptionFieldExtractor.__init__`. -/
def schema : List (String × FieldSpec) :=
  [("patient_name", ⟨FieldType.string, some 100, true⟩),
   ("patient_address", ⟨FieldType.string, some 255, false⟩),
   ("patient_dob", ⟨FieldType.date, Option.none, true⟩),
   ("patient_age", ⟨FieldType.integer, Option.none, true⟩),
   ("patient_sex", ⟨FieldType.string, some 10, true⟩),
   ("prescription_date", ⟨FieldType.date, Option.none, true⟩),
   ("doctor_name", ⟨FieldType.string, some 100, true⟩),
   ("doctor_title", ⟨FieldType.string, some 100, true⟩),
   ("clinic_address", ⟨FieldType.string, some 255, false⟩),
   ("clinic_phone", ⟨FieldType.string, some 20, true⟩),
   ("medicine_name", ⟨FieldType.string, some 100, true⟩),
   ("medicine_dose", ⟨FieldType.string, some 50, true⟩),
   ("medicine_frequency", ⟨FieldType.string, some 20, false⟩),
   ("medicine_duration", ⟨FieldType.string, some 50, true⟩),
   ("instructions", ⟨FieldType.text, some 500, true⟩),
   ("immunization", ⟨FieldType.string, some 100, false⟩),
   ("immunization_date", ⟨FieldType.date, Option.none, false⟩),
   ("is_allergic", ⟨FieldType.boolean, Option.none, false⟩),
   ("weight", ⟨FieldType.string, Option.none, false⟩),
   ("is_pregnant", ⟨FieldType.boolean, Option.none, false⟩)]

/-- Collapse every whitespace run to a single space
(`re.sub(r'\s+', ' ', ...)`), fuelled by the input length (every step
consumes at least the head character). -/
def collapseWsGo : Nat → List Char → List Char
  | 0, _ => []
  | _ + 1, [] => []
  | fuel + 1, c :: rest =>
    if pyIsSpace c then ' ' :: collapseWsGo fuel (rest.dropWhile pyIsSpace)
    else c :: collapseWsGo fuel rest

/-- Whitespace-run collapsing with sufficient fuel. -/
def collapseWs (l : List Char) : List Char :=
  collapseWsGo l.length l

/-- `clean_text`: empty input stays empty; otherwise strip then collapse
internal whitespace runs (including newlines) to single spaces. -/
def clean_text (text : String) : String :=
  if text.isEmpty then ""
  else String.mk (collapseWs (pyStripList text.toList))

/-- Shape `[A-Z][a-z]+` under `re.IGNORECASE`: a maximal letter run of at
least two letters. -/
def letterWord2 (s : List Char) : Option (List Char × List Char) :=
  let (run, rest) := chompWhile isLetterChar s
  if run.length ≥ 2 then some (run, rest) else Option.none

/-- Shape `[A-Z][a-z]+\s+[A-Z]\.\s+[A-Z][a-z]+` (First M. Last). -/
def nameShape3 (s : List Char) : Option (List Char × List Char) := do
  let (w1, r1) ← letterWord2 s
  let (ws1, r2) ← chomp1 pyIsSpace r1
  let (m, r3) ← chompOne isLetterChar r2
  let (d, r4) ← chompOne (fun c => c == '.') r3
  let (ws2, r5) ← chomp1 pyIsSpace r4
  let (w2, r6) ← letterWord2 r5
  some (w1 ++ ws1 ++ [m, d] ++ ws2 ++ w2, r6)

/-- Shape `[A-Z][a-z]+(?:\s+[A-Z]\.?)?\s+[A-Z][a-z]+`: two words with an
optional middle initial; the optional group is tried greedily (with the
dot before without), falling back to the plain two-word form. -/
def nameShapeOpt (s : List Char) : Option (List Char × List Char) :=
  match letterWord2 s with
  | Option.none => Option.none
  | some (w1, r1) =>
    let withMiddle : Option (List Char × List Char) := do
      let (ws1, r2) ← chomp1 pyIsSpace r1
      let (m, r3) ← chompOne isLetterChar r2
      let dotTails : List (List Char × List Char) :=
        (match chompOne (fun c => c == '.') r3 with
         | some (d, r4) => [([m, d], r4)]
         | Option.none => []) ++ [([m], r3)]
      firstSomeList
        (fun mid => do
          let (ws2, r5) ← chomp1 pyIsSpace mid.2
          let (w2, r6) ← letterWord2 r5
          some (w1 ++ ws1 ++ mid.1 ++ ws2 ++ w2, r6)) dotTails
    match withMiddle with
    | some res => some res
    | Option.none => do
      let (ws, r2) ← chomp1 pyIsSpace r1
      let (w2, r3) ← letterWord2 r2
      some (w1 ++ ws ++ w2, r3)

/-- Pattern `FOR.*?\(.*?\)\s*([A-Z][a-z]+\s+[A-Z]\.\s+[A-Z][a-z]+)` of
`extract_patient_name`. -/
def pnAnchor1 (s : List Char) : Option (List Char) := do
  let r1 ← chompLit "for".toList s
  lazyDot (fun _ r2 =>
    match chompOne (fun c => c == '(') r2 with
    | Option.none => Option.none
    | some (_, r3) =>
      lazyDot (fun _ r4 =>
        match chompOne (fun c => c == ')') r4 with
        | Option.none => Option.none
        | some (_, r5) =>
          let (_, r6) := chompWhile pyIsSpace r5
          (nameShape3 r6).map (fun g => g.1)) r3) r1

/-- Patterns `Patient.*?[:\-]\s*(...)` and `Name.*?[:\-]\s*(...)` of
`extract_patient_name`, parametrised by the label literal. -/
def pnLabelAnchor (label : String) (s : List Char) : Option (List Char) := do
  let r1 ← chompLit label.toList s
  lazyDot (fun _ r2 =>
    match chompOne (fun c => c == ':' || c == '-') r2 with
    | Option.none => Option.none
    | some (_, r3) =>
      let (_, r4) := chompWhile pyIsSpace r3
      (nameShapeOpt r4).map (fun g => g.1)) r1

/-- Pattern `([A-Z][a-z]+\s+[A-Z]\.\s+[A-Z][a-z]+),\s+\w+,\s+\w+` of
`extract_patient_name`. -/
def pnAnchor4 (s : List Char) : Option (List Char) := do
  let (nm, r1) ← nameShape3 s
  let (_, r2) ← chompOne (fun c => c == ',') r1
  let (_, r3) ← chomp1 pyIsSpace r2
  let (_, r4) ← chomp1 isWordChar r3
  let (_, r5) ← chompOne (fun c => c == ',') r4
  let (_, r6) ← chomp1 pyIsSpace r5
  let (_, _) ← chomp1 isWordChar r6
  some nm

/-- Alternation `(HM\d+|USN|USNR|MD|DR\.?)` of the rank-stripping
substitution in `extract_patient_name`. -/
def rankAltAnchor (s : List Char) : Option (List Char) :=
  (do
    let r ← chompLit "hm".toList s
    let (_, r2) ← chomp1 Char.isDigit r
    some r2) <|>
  (chompLit "usn".toList s) <|>
  (chompLit "usnr".toList s) <|>
  (chompLit "md".toList s) <|>
  (do
    let r ← chompLit "dr".toList s
    some (optOne (fun c => c == '.') r).2)

/-- Whether the substitution pattern `,\s*(HM\d+|USN|USNR|MD|DR\.?).*?$`
matches starting at this position. -/
def rankMatchesHere (s : List Char) : Bool :=
  match s with
  | ',' :: r1 =>
    let (_, r2) := chompWhile pyIsSpace r1
    match rankAltAnchor r2 with
    | some r3 => r3.all (fun c => !(c == '\n'))
    | Option.none => false
  | _ => false

/-- `re.sub(r',\s*(HM\d+|USN|USNR|MD|DR\.?).*?$', '', name)`: delete from
the leftmost matching comma through the end. -/
def stripRank : List Char → List Char
  | [] => []
  | c :: rest =>
    if rankMatchesHere (c :: rest) then []
    else c :: stripRank rest

/-- `extract_patient_name`: first pattern (in source order) with a match
wins; the captured name is cleaned, rank-stripped and stripped. -/
def extract_patient_name (text : String) : String :=
  let t := text.toList
  let cap : Option (List Char) :=
    (reSearch pnAnchor1 t) <|> (reSearch (pnLabelAnchor "patient") t) <|>
    (reSearch (pnLabelAnchor "name") t) <|> (reSearch pnAnchor4 t)
  match cap with
  | some g =>
    let nm := clean_text (String.mk g)
    pyStrip (String.mk (stripRank nm.toList))
  | Option.none => ""

/-- Shape `\d{1,2}[/\-]\d{1,2}[/\-]\d{2,4}` (slash/dash dates). -/
def dateShapeSlash (s : List Char) : Option (List Char × List Char) :=
  repRange 1 2 Char.isDigit (fun d1 r1 =>
    match chompOne (fun c => c == '/' || c == '-') r1 with
    | Option.none => Option.none
    | some (s1, r2) =>
      repRange 1 2 Char.isDigit (fun d2 r3 =>
        match chompOne (fun c => c == '/' || c == '-') r3 with
        | Option.none => Option.none
        | some (s2, r4) =>
          repRange 2 4 Char.isDigit (fun d3 r5 =>
            some (d1 ++ [s1] ++ d2 ++ [s2] ++ d3, r5)) r4) r2) s

/-- Shape `\d{1,2}\s+\w{3}\s+\d{2,4}` (e.g. `23 JAN 99`). -/
def dmyShape (s : List Char) : Option (List Char × List Char) :=
  repRange 1 2 Char.isDigit (fun d1 r1 =>
    match chomp1 pyIsSpace r1 with
    | Option.none => Option.none
    | some (ws1, r2) =>
      repRange 3 3 isWordChar (fun mon r3 =>
        match chomp1 pyIsSpace r3 with
        | Option.none => Option.none
        | some (ws2, r4) =>
          repRange 2 4 Char.isDigit (fun d2 r5 =>
            some (d1 ++ ws1 ++ mon ++ ws2 ++ d2, r5)) r4) r2) s

/-- Pattern `DATE\s+(\d{1,2}\s+\w{3}\s+\d{2,4})`. -/
def prDateAnchor1 (s : List Char) : Option (List Char) := do
  let r1 ← chompLit "date".toList s
  let (_, r2) ← chomp1 pyIsSpace r1
  (dmyShape r2).map (fun g => g.1)

/-- Pattern `(?:PRESCRIPTION|RX).*?(\d{1,2}[/\-]\d{1,2}[/\-]\d{2,4})`. -/
def prDateAnchor2 (s : List Char) : Option (List Char) := do
  let r1 ← (chompLit "prescription".toList s) <|> (chompLit "rx".toList s)
  lazyDot (fun _ r2 => (dateShapeSlash r2).map (fun g => g.1)) r1

/-- Pattern `(\d{1,2}\s+\w{3,9}\s+\d{4})` (e.g. `23 January 1999`). -/
def prDateAnchor3 (s : List Char) : Option (List Char) :=
  repRange 1 2 Char.isDigit (fun d1 r1 =>
    match chomp1 pyIsSpace r1 with
    | Option.none => Option.none
    | some (ws1, r2) =>
      repRange 3 9 isWordChar (fun mon r3 =>
        match chomp1 pyIsSpace r3 with
        | Option.none => Option.none
        | some (ws2, r4) =>
          repRange 4 4 Char.isDigit (fun d2 _ =>
            some (d1 ++ ws1 ++ mon ++ ws2 ++ d2)) r4) r2) s

/-- DOB pattern `DOB[:\-\s]+(\d{1,2}[/\-]\d{1,2}[/\-]\d{2,4})`. -/
def dobAnchor1 (s : List Char) : Option (List Char) := do
  let r1 ← chompLit "dob".toList s
  let (_, r2) ← chomp1 isSepChar r1
  (dateShapeSlash r2).map (fun g => g.1)

/-- DOB patterns `Birth.*?(...)` and `Born.*?(...)`, parametrised by the
label literal. -/
def dobLabelAnchor (label : String) (s : List Char) : Option (List Char) := do
  let r1 ← chompLit label.toList s
  lazyDot (fun _ r2 => (dateShapeSlash r2).map (fun g => g.1)) r1

/-- `extract_dates`: first matching prescription-date pattern and first
matching DOB pattern, each cleaned; `immunization_date` is initialised
empty and never set. -/
def extract_dates (text : String) : PyDict :=
  let t := text.toList
  let presc : Option (List Char) :=
    (reSearch prDateAnchor1 t) <|> (reSearch prDateAnchor2 t) <|> (reSearch prDateAnchor3 t)
  let dob : Option (List Char) :=
    (reSearch dobAnchor1 t) <|> (reSearch (dobLabelAnchor "birth") t) <|>
    (reSearch (dobLabelAnchor "born") t)
  [("prescription_date",
     Value.vstr (match presc with | some g => clean_text (String.mk g) | Option.none => "")),
   ("patient_dob",
     Value.vstr (match dob with | some g => clean_text (String.mk g) | Option.none => "")),
   ("immunization_date", Value.vstr "")]

/-- Age pattern `Age[:\-\s]+(\d{1,3})`. -/
def ageAnchor1 (s : List Char) : Option (List Char) := do
  let r1 ← chompLit "age".toList s
  let (_, r2) ← chomp1 isSepChar r1
  repRange 1 3 Char.isDigit (fun ds _ => some ds) r2

/-- Age pattern `(\d{1,3})\s*y(?:ears?)?\.?\s*old`. -/
def ageAnchor2 (s : List Char) : Option (List Char) :=
  repRange 1 3 Char.isDigit (fun ds r1 =>
    let (_, r2) := chompWhile pyIsSpace r1
    match chompLit "y".toList r2 with
    | Option.none => Option.none
    | some r3 =>
      let earTails : List (List Char) :=
        (match chompLit "ears".toList r3 with | some r => [r] | Option.none => []) ++
        (match chompLit "ear".toList r3 with | some r => [r] | Option.none => []) ++ [r3]
      firstSomeList
        (fun r4 =>
          let r5 := (optOne (fun c => c == '.') r4).2
          let (_, r6) := chompWhile pyIsSpace r5
          (chompLit "old".toList r6).map (fun _ => ds)) earTails) s

/-- Age pattern `(?:under|age)\s+(\d{1,3})`. -/
def ageAnchor3 (s : List Char) : Option (List Char) := do
  let r1 ← (chompLit "under".toList s) <|> (chompLit "age".toList s)
  let (_, r2) ← chomp1 pyIsSpace r1
  repRange 1 3 Char.isDigit (fun ds _ => some ds) r2

/-- The age loop of `extract_patient_demographics` (lines 103-114): the
first pattern with a match anywhere wins; its digits become an `int`
with **no range validation**. -/
def ageValue (t : List Char) : Option Nat :=
  ((reSearch ageAnchor1 t) <|> (reSearch ageAnchor2 t) <|> (reSearch ageAnchor3 t)).map
    digitsToNat

/-- Gender pattern `(?:Sex|Gender)[:\-\s]+(Male|Female|M|F)`; the result
records which of the alternation's branches matched (`true` for the
male-normalising branches `Male`/`M`). -/
def genderAnchor1 (s : List Char) : Option Bool := do
  let r1 ← (chompLit "sex".toList s) <|> (chompLit "gender".toList s)
  let (_, r2) ← chomp1 isSepChar r1
  match chompLit "male".toList r2 with
  | some _ => some true
  | Option.none =>
    match chompLit "female".toList r2 with
    | some _ => some false
    | Option.none =>
      match chompLit "m".toList r2 with
      | some _ => some true
      | Option.none =>
        match chompLit "f".toList r2 with
        | some _ => some false
        | Option.none => Option.none

/-- Gender pattern `\b(Male|Female|M|F)\b` (word boundaries on both
sides). -/
def genderAnchor2 (prev : Option Char) (s : List Char) : Option Bool :=
  if prevNoWord prev then
    (do
      let r ← chompLit "male".toList s
      if noWordAt r then some true else Option.none) <|>
    (do
      let r ← chompLit "female".toList s
      if noWordAt r then some false else Option.none) <|>
    (do
      let r ← chompLit "m".toList s
      if noWordAt r then some true else Option.none) <|>
    (do
      let r ← chompLit "f".toList s
      if noWordAt r then some false else Option.none)
  else Option.none

/-- The gender loop of `extract_patient_demographics`: normalise to
exactly `"Male"` or `"Female"`. -/
def genderValue (t : List Char) : Option Bool :=
  (reSearch genderAnchor1 t) <|> (reSearchPrev genderAnchor2 Option.none t)

/-- Number shape `\d+(?:\.\d+)?`. -/
def numShape (s : List Char) : Option (List Char × List Char) := do
  let (d1, r1) ← chomp1 Char.isDigit s
  match chompOne (fun c => c == '.') r1 with
  | some (dot, r2) =>
    match chomp1 Char.isDigit r2 with
    | some (d2, r3) => some (d1 ++ [dot] ++ d2, r3)
    | Option.none => some (d1, r1)
  | Option.none => some (d1, r1)

/-- Weight unit alternation `(kg|lbs?|pounds?)`, capturing the matched
text. -/
def weightUnit (s : List Char) : Option (List Char × List Char) :=
  altCap ["kg", "lbs", "lb", "pounds", "pound"] s

/-- Weight pattern `Weight[:\-\s]+(\d+(?:\.\d+)?)\s*(kg|lbs?|pounds?)`. -/
def weightAnchor1 (s : List Char) : Option (List Char × List Char) := do
  let r1 ← chompLit "weight".toList s
  let (_, r2) ← chomp1 isSepChar r1
  let (num, r3) ← numShape r2
  let (_, r4) := chompWhile pyIsSpace r3
  let (unit, _) ← weightUnit r4
  some (num, unit)

/-- Weight pattern `(\d+(?:\.\d+)?)\s*(kg|lbs?|pounds?)`. -/
def weightAnchor2 (s : List Char) : Option (List Char × List Char) := do
  let (num, r1) ← numShape s
  let (_, r2) := chompWhile pyIsSpace r1
  let (unit, _) ← weightUnit r2
  some (num, unit)

/-- `extract_patient_demographics`: age (no range check), normalised
gender, and weight formatted as `f"{num} {unit}"`. -/
def extract_patient_demographics (text : String) : PyDict :=
  let t := text.toList
  let w : Option (List Char × List Char) :=
    (reSearch weightAnchor1 t) <|> (reSearch weightAnchor2 t)
  [("patient_age",
     match ageValue t with
     | some n => Value.vint (n : Int)
     | Option.none => Value.vstr ""),
   ("patient_sex",
     Value.vstr (match genderValue t with
       | some true => "Male"
       | some false => "Female"
       | Option.none => "")),
   ("weight",
     Value.vstr (match w with
       | some (num, unit) => String.mk num ++ " " ++ String.mk unit
       | Option.none => ""))]

/-- Doctor pattern
`([A-Z][a-z]+\s+[A-Z]\.\s+[A-Z][a-z]+)\s+((?:LODR\.|MD|DR\.?|USNR|DDS|DO|NP|PA).*?)(?:\s|$)`:
name shape, whitespace, then a title group starting with a degree token
and lazily extended until whitespace or the end. -/
def docAnchor1 (s : List Char) : Option (List Char × List Char) := do
  let (nm, r1) ← nameShape3 s
  let (_, r2) ← chomp1 pyIsSpace r1
  let (tok, r3) ← altCap ["LODR.", "MD", "DR.", "DR", "USNR", "DDS", "DO", "NP", "PA"] r2
  lazyDot (fun mid r4 =>
    match r4 with
    | [] => some (nm, tok ++ mid)
    | c :: _ => if pyIsSpace c then some (nm, tok ++ mid) else Option.none) r3

/-- Doctor pattern `(?:Dr\.?|Doctor)\s+([A-Z][a-z]+(?:\s+[A-Z]\.?)?\s+[A-Z][a-z]+)`. -/
def docAnchor2 (s : List Char) : Option (List Char) := do
  let r1 ← (do
      let r ← chompLit "dr".toList s
      some (optOne (fun c => c == '.') r).2) <|>
    (chompLit "doctor".toList s)
  let (_, r2) ← chomp1 pyIsSpace r1
  (nameShapeOpt r2).map (fun g => g.1)

/-- Doctor pattern `SIGNATURE.*?([A-Z][a-z]+\s+[A-Z]\.\s+[A-Z][a-z]+)`. -/
def docAnchor3 (s : List Char) : Option (List Char) := do
  let r1 ← chompLit "signature".toList s
  lazyDot (fun _ r2 => (nameShape3 r2).map (fun g => g.1)) r1

/-- `extract_doctor_info`: first matching pattern wins; a second capture
group, when the pattern has one, becomes the title. -/
def extract_doctor_info (text : String) : PyDict :=
  match reSearch docAnchor1 text.toList with
  | some (nm, ttl) =>
    [("doctor_name", Value.vstr (clean_text (String.mk nm))),
     ("doctor_title", Value.vstr (clean_text (String.mk ttl)))]
  | Option.none =>
    match reSearch docAnchor2 text.toList with
    | some nm =>
      [("doctor_name", Value.vstr (clean_text (String.mk nm))),
       ("doctor_title", Value.vstr "")]
    | Option.none =>
      match reSearch docAnchor3 text.toList with
      | some nm =>
        [("doctor_name", Value.vstr (clean_text (String.mk nm))),
         ("doctor_title", Value.vstr "")]
      | Option.none =>
        [("doctor_name", Value.vstr ""), ("doctor_title", Value.vstr "")]

/-- Lookahead `(?=DATE|$)` of the clinic-address pattern. -/
def lookDateOrEnd (r : List Char) : Bool :=
  (match chompLit "date".toList r with
   | some _ => true
   | Option.none => false) || atDollar r

/-- Clinic pattern `MEDICAL FACILITY\s+(.*?)(?=DATE|$)`. -/
def clinicAnchor1 (s : List Char) : Option (List Char) := do
  let r1 ← chompLit "medical facility".toList s
  let (_, r2) ← chomp1 pyIsSpace r1
  lazyDot (fun cap r3 => if lookDateOrEnd r3 then some cap else Option.none) r2

/-- Clinic pattern `(?:Clinic|Hospital|Facility)[:\-\s]+(.*?)(?:\n|$)`. -/
def clinicAnchor2 (s : List Char) : Option (List Char) := do
  let r1 ← (chompLit "clinic".toList s) <|> (chompLit "hospital".toList s) <|>
    (chompLit "facility".toList s)
  let (_, r2) ← chomp1 isSepChar r1
  some (captureToLineEnd r2)

/-- Clinic pattern `U\.S\.S\.\s+(.*?)\s+\([^)]+\)`. -/
def clinicAnchor3 (s : List Char) : Option (List Char) := do
  let r1 ← chompLit "u.s.s.".toList s
  let (_, r2) ← chomp1 pyIsSpace r1
  lazyDot (fun cap r3 => do
    let (_, r4) ← chomp1 pyIsSpace r3
    let (_, r5) ← chompOne (fun c => c == '(') r4
    let (_, r6) ← chomp1 (fun c => !(c == ')')) r5
    let (_, _) ← chompOne (fun c => c == ')') r6
    some cap) r2

/-- Phone-separator class `[-.\s]`. -/
def isPhoneSep (c : Char) : Bool := c == '-' || c == '.' || pyIsSpace c

/-- Exact repetition `\d{n}`: take exactly `n` digits; any further
contiguous digits are left for the following atoms. -/
def exactDigits (n : Nat) (s : List Char) : Option (List Char × List Char) :=
  let run := s.takeWhile Char.isDigit
  if run.length < n then Option.none
  else some (run.take n, run.drop n ++ s.dropWhile Char.isDigit)

/-- Phone shape `\(?\d{3}\)?[-.\s]?\d{3}[-.\s]?\d{4}` (capture is the
matched text). -/
def phoneShape (s : List Char) : Option (List Char) := do
  let (o1, r1) := optOne (fun c => c == '(') s
  let (d1, r2) ← exactDigits 3 r1
  let (o2, r3) := optOne (fun c => c == ')') r2
  let (s1, r4) := optOne isPhoneSep r3
  let (d2, r5) ← exactDigits 3 r4
  let (s2, r6) := optOne isPhoneSep r5
  let (d3, _) ← exactDigits 4 r6
  some (o1 ++ d1 ++ o2 ++ s1 ++ d2 ++ s2 ++ d3)

/-- Phone pattern
`(?:Phone|Tel|Call)[:\-\s]*(\(?\d{3}\)?[-.\s]?\d{3}[-.\s]?\d{4})`. -/
def phoneAnchor1 (s : List Char) : Option (List Char) := do
  let r1 ← (chompLit "phone".toList s) <|> (chompLit "tel".toList s) <|>
    (chompLit "call".toList s)
  let (_, r2) := chompWhile isSepChar r1
  phoneShape r2

/-- `extract_clinic_info`: first matching address pattern and first
matching phone pattern, each cleaned. -/
def extract_clinic_info (text : String) : PyDict :=
  let t := text.toList
  let addr : Option (List Char) :=
    (reSearch clinicAnchor1 t) <|> (reSearch clinicAnchor2 t) <|> (reSearch clinicAnchor3 t)
  let phone : Option (List Char) :=
    (reSearch phoneAnchor1 t) <|> (reSearch phoneShape t)
  [("clinic_address",
     Value.vstr (match addr with | some g => clean_text (String.mk g) | Option.none => "")),
   ("clinic_phone",
     Value.vstr (match phone with | some g => clean_text (String.mk g) | Option.none => ""))]

/-- Dose-unit alternation `(?:mg|ml|g|tablets?)` with captured text. -/
def doseUnit (s : List Char) : Option (List Char × List Char) :=
  altCap ["mg", "ml", "g", "tablets", "tablet"] s

/-- Medicine pattern `(?:Tr|Rx)\s+(\w+)\s+(\d+\s*ml)`; payload is
(name capture, dose capture) plus the unconsumed rest for `finditer`. -/
def medAnchor1 (s : List Char) : Option ((List Char × List Char) × List Char) := do
  let r1 ← (chompLit "tr".toList s) <|> (chompLit "rx".toList s)
  let (_, r2) ← chomp1 pyIsSpace r1
  let (nm, r3) ← chomp1 isWordChar r2
  let (_, r4) ← chomp1 pyIsSpace r3
  let (d, r5) ← chomp1 Char.isDigit r4
  let (ws, r6) := chompWhile pyIsSpace r5
  let (ml, r7) ← altCap ["ml"] r6
  some ((nm, d ++ ws ++ ml), r7)

/-- Medicine pattern `(\w+)\s+(\w+)\s+(\d+\s*ml)`; the code appends
group 1 as the name and group 3 as the dose. -/
def medAnchor2 (s : List Char) : Option ((List Char × List Char) × List Char) := do
  let (nm, r1) ← chomp1 isWordChar s
  let (_, r2) ← chomp1 pyIsSpace r1
  let (_, r3) ← chomp1 isWordChar r2
  let (_, r4) ← chomp1 pyIsSpace r3
  let (d, r5) ← chomp1 Char.isDigit r4
  let (ws, r6) := chompWhile pyIsSpace r5
  let (ml, r7) ← altCap ["ml"] r6
  some ((nm, d ++ ws ++ ml), r7)

/-- Medicine pattern `(\w+)\s+(\d+\s*(?:mg|ml|g|tablets?))`. -/
def medAnchor3 (s : List Char) : Option ((List Char × List Char) × List Char) := do
  let (nm, r1) ← chomp1 isWordChar s
  let (_, r2) ← chomp1 pyIsSpace r1
  let (d, r3) ← chomp1 Char.isDigit r2
  let (ws, r4) := chompWhile pyIsSpace r3
  let (u, r5) ← doseUnit r4
  some ((nm, d ++ ws ++ u), r5)

/-- The medicine collection loop of `extract_medication_info`
(lines 215-224): `finditer` over each pattern in order, appending the
name and the dose captures in lockstep. -/
def medPairs (t : List Char) : List (String × String) :=
  ((reFindIter medAnchor1 t ++ reFindIter medAnchor2 t ++ reFindIter medAnchor3 t).map
    (fun pr => (String.mk pr.1, String.mk pr.2)))

/-- Frequency pattern `(\d+\+\d+\+\d+)`. -/
def freqAnchor1 (s : List Char) : Option (List Char) := do
  let (d1, r1) ← chomp1 Char.isDigit s
  let (p1, r2) ← chompOne (fun c => c == '+') r1
  let (d2, r3) ← chomp1 Char.isDigit r2
  let (p2, r4) ← chompOne (fun c => c == '+') r3
  let (d3, _) ← chomp1 Char.isDigit r4
  some (d1 ++ [p1] ++ d2 ++ [p2] ++ d3)

/-- Frequency pattern `(\d+)\s*times?\s*(?:per\s*)?day` (group 1 is the
digits only). -/
def freqAnchor2 (s : List Char) : Option (List Char) := do
  let (d1, r1) ← chomp1 Char.isDigit s
  let (_, r2) := chompWhile pyIsSpace r1
  let r3 ← (chompLit "times".toList r2) <|> (chompLit "time".toList r2)
  let (_, r4) := chompWhile pyIsSpace r3
  let r5 :=
    match chompLit "per".toList r4 with
    | some r => (chompWhile pyIsSpace r).2
    | Option.none => r4
  let _ ← chompLit "day".toList r5
  some d1

/-- Frequency pattern `every\s+(\d+)\s*hours?`. -/
def freqAnchor3 (s : List Char) : Option (List Char) := do
  let r1 ← chompLit "every".toList s
  let (_, r2) ← chomp1 pyIsSpace r1
  let (d1, r3) ← chomp1 Char.isDigit r2
  let (_, r4) := chompWhile pyIsSpace r3
  let _ ← chompLit "hour".toList r4
  some d1

/-- Duration-unit alternation `(?:days?|weeks?|months?)` with captured
text. -/
def durationUnit (s : List Char) : Option (List Char × List Char) :=
  altCap ["days", "day", "weeks", "week", "months", "month"] s

/-- Duration shape `\d+\s*(?:days?|weeks?|months?)`. -/
def durationShape (s : List Char) : Option (List Char × List Char) := do
  let (d, r1) ← chomp1 Char.isDigit s
  let (ws, r2) := chompWhile pyIsSpace r1
  let (u, r3) ← durationUnit r2
  some (d ++ ws ++ u, r3)

/-- Duration pattern `for\s+(\d+\s*(?:days?|weeks?|months?))`. -/
def durAnchor1 (s : List Char) : Option (List Char) := do
  let r1 ← chompLit "for".toList s
  let (_, r2) ← chomp1 pyIsSpace r1
  (durationShape r2).map (fun g => g.1)

/-- Duration pattern `(\d+\s*(?:days?|weeks?|months?))\s*course`. -/
def durAnchor2 (s : List Char) : Option (List Char) := do
  let (cap, r1) ← durationShape s
  let (_, r2) := chompWhile pyIsSpace r1
  let _ ← chompLit "course".toList r2
  some cap

/-- Instruction pattern `(?:Seg|Signa)[:\-\s]*(.*?)(?:\n|$)`. -/
def instrAnchor1 (s : List Char) : Option (List Char) := do
  let r1 ← (chompLit "seg".toList s) <|> (chompLit "signa".toList s)
  let (_, r2) := chompWhile isSepChar r1
  some (captureToLineEnd r2)

/-- Instruction pattern `Instructions[:\-\s]*(.*?)(?:\n|$)`. -/
def instrAnchor2 (s : List Char) : Option (List Char) := do
  let r1 ← chompLit "instructions".toList s
  let (_, r2) := chompWhile isSepChar r1
  some (captureToLineEnd r2)

/-- Instruction pattern `Take\s+(.*?)(?:\n|$)`. -/
def instrAnchor3 (s : List Char) : Option (List Char) := do
  let r1 ← chompLit "take".toList s
  let (_, r2) ← chomp1 pyIsSpace r1
  some (captureToLineEnd r2)

/-- `extract_medication_info`: medicine name/dose pair lists joined with
`", "` (the name list deduplicated through Python's `set`, whose
iteration order is implementation-defined; it is modelled here as
first-occurrence order, and the theorems below depend only on the number
of distinct names), plus first-match frequency, duration and cleaned
instructions. -/
def extract_medication_info (text : String) : PyDict :=
  let t := text.toList
  let pairs := medPairs t
  let freq : Option (List Char) :=
    (reSearch freqAnchor1 t) <|> (reSearch freqAnchor2 t) <|> (reSearch freqAnchor3 t)
  let dur : Option (List Char) :=
    (reSearch durAnchor1 t) <|> (reSearch durAnchor2 t)
  let instr : Option (List Char) :=
    (reSearch instrAnchor1 t) <|> (reSearch instrAnchor2 t) <|> (reSearch instrAnchor3 t)
  [("medicine_name",
     Value.vstr (if pairs.isEmpty then ""
       else String.intercalate ", " ((pairs.map (fun pr => pr.1)).eraseDups))),
   ("medicine_dose",
     Value.vstr (if pairs.isEmpty then ""
       else String.intercalate ", " (pairs.map (fun pr => pr.2)))),
   ("medicine_frequency",
     Value.vstr (match freq with | some g => String.mk g | Option.none => "")),
   ("medicine_duration",
     Value.vstr (match dur with | some g => String.mk g | Option.none => "")),
   ("instructions",
     Value.vstr (match instr with | some g => clean_text (String.mk g) | Option.none => ""))]

/-- Whether `re.search(pat, text)` (plain case-insensitive substring for
a literal pattern) succeeds. -/
def containsCI (needle : String) (t : List Char) : Bool :=
  match reSearch (fun s => (chompLit needle.toList s).map (fun _ => ())) t with
  | some _ => true
  | Option.none => false

/-- Negated-shape search `no.*?allerg` / `not.*?pregnan`: the first
literal, lazy dots (not crossing a newline), then the second literal. -/
def negShape (first second : String) (t : List Char) : Bool :=
  match reSearch (fun s => do
      let r1 ← chompLit first.toList s
      lazyDot (fun _ r2 => (chompLit second.toList r2).map (fun _ => ())) r1) t with
  | some _ => true
  | Option.none => false

/-- Greedy `(?:\s+\w+)*`, fuelled by the input length (each iteration
consumes at least two characters). -/
def wordSeqStar : Nat → List Char → List Char × List Char
  | 0, s => ([], s)
  | fuel + 1, s =>
    match chomp1 pyIsSpace s with
    | Option.none => ([], s)
    | some (ws, r1) =>
      match chomp1 isWordChar r1 with
      | Option.none => ([], s)
      | some (w, r2) =>
        let (more, r3) := wordSeqStar fuel r2
        (ws ++ w ++ more, r3)

/-- Vaccine pattern
`(?:Vaccine|Immunization|Vaccination)[:\-\s]+(\w+(?:\s+\w+)*)`. -/
def vaccineAnchor1 (s : List Char) : Option (List Char) := do
  let r1 ← (chompLit "vaccine".toList s) <|> (chompLit "immunization".toList s) <|>
    (chompLit "vaccination".toList s)
  let (_, r2) ← chomp1 isSepChar r1
  let (w, r3) ← chomp1 isWordChar r2
  some (w ++ (wordSeqStar r3.length r3).1)

/-- Vaccine pattern `(\w+)\s+vaccine`. -/
def vaccineAnchor2 (s : List Char) : Option (List Char) := do
  let (w, r1) ← chomp1 isWordChar s
  let (_, r2) ← chomp1 pyIsSpace r1
  let _ ← chompLit "vaccine".toList r2
  some w

/-- `extract_special_conditions`: the allergy and pregnancy `if`/`elif`
pairs exactly as written (substring branch first, negation branch only
otherwise), plus the immunization label patterns. -/
def extract_special_conditions (text : String) : PyDict :=
  let t := text.toList
  let vac : Option (List Char) :=
    (reSearch vaccineAnchor1 t) <|> (reSearch vaccineAnchor2 t)
  [("is_allergic",
     if containsCI "allerg" t then Value.vbool true
     else if negShape "no" "allerg" t then Value.vbool false
     else Value.vnone),
   ("is_pregnant",
     if containsCI "pregnan" t then Value.vbool true
     else if negShape "not" "pregnan" t then Value.vbool false
     else Value.vnone),
   ("immunization",
     Value.vstr (match vac with | some g => clean_text (String.mk g) | Option.none => "")),
   ("immunization_date", Value.vstr "")]

/-- The per-field body of `validate_and_format_fields`: the empty-value
gate (`not value and value != 0 and value is not False`, where Python's
`!=` identifies `False` with `0`), then the per-type branch. -/
def validateValue (spec : FieldSpec) (v : Value) : Value :=
  if !(pyTruthy v) ∧ v ≠ Value.vint 0 ∧ v ≠ Value.vbool false then
    match spec.ftype with
    | FieldType.string | FieldType.text | FieldType.date => Value.vstr ""
    | _ => Value.vnone
  else
    match spec.ftype with
    | FieldType.string | FieldType.text =>
      let sv := pyStr v
      match spec.max_length with
      | some m =>
        if sv.length > m then Value.vstr (String.mk (sv.toList.take m)) else Value.vstr sv
      | Option.none => Value.vstr sv
    | FieldType.integer =>
      if pyTruthy v then
        match pyIntOfValue v with
        | some n => Value.vint n
        | Option.none => Value.vnone
      else Value.vnone
    | FieldType.boolean =>
      match v with
      | Value.vbool b => Value.vbool b
      | _ => Value.vnone
    | FieldType.date =>
      if pyTruthy v then Value.vstr (pyStr v) else Value.vstr ""

/-- `validate_and_format_fields`: every entry is re-emitted under its key;
schema fields are coerced by `validateValue`, unknown fields pass
through. -/
def validate_and_format_fields (fields : PyDict) : PyDict :=
  fields.map (fun kv =>
    match schema.lookup kv.1 with
    | some spec => (kv.1, validateValue spec kv.2)
    | Option.none => kv)

/-- The body of `extract_all_fields` after the input has been cleaned:
initialise every schema field to `""`, run the category extractors in
source order, then validate. -/
def extractFieldsCleaned (text : String) : PyDict :=
  let init : PyDict := schema.map (fun e => (e.1, Value.vstr ""))
  let d1 := setKey init "patient_name" (Value.vstr (extract_patient_name text))
  let d2 := dictUpdate d1 (extract_dates text)
  let d3 := dictUpdate d2 (extract_patient_demographics text)
  let d4 := dictUpdate d3 (extract_doctor_info text)
  let d5 := dictUpdate d4 (extract_clinic_info text)
  let d6 := dictUpdate d5 (extract_medication_info text)
  let d7 := dictUpdate d6 (extract_special_conditions text)
  validate_and_format_fields d7

/-- `extract_all_fields`: clean the OCR text, then extract and
validate. -/
def extract_all_fields (ocr_text : String) : PyDict :=
  extractFieldsCleaned (clean_text ocr_text)

/-- Per-field completion status (`field_status` entries). -/
structure FieldStatus where
  required : Bool
  completed : Bool
  value : Value
  deriving DecidableEq, Repr

/-- The completion report returned by `get_field_completion_status`. -/
structure CompletionReport where
  total_fields : Nat
  completed_fields : Nat
  required_fields : Nat
  required_completed : Nat
  field_status : List (String × FieldStatus)
  completion_percentage : Rat
  required_completion_percentage : Rat
  deriving DecidableEq, Repr

/-- The accumulation loop of `get_field_completion_status`: walk the
schema computing (completed, required, required-and-completed, status
list); `has_value = bool(fields.get(name))` is Python truthiness. -/
def scoreLoop (fields : PyDict) :
    List (String × FieldSpec) → Nat × Nat × Nat × List (String × FieldStatus)
  | [] => (0, 0, 0, [])
  | (name, spec) :: rest =>
    let has_value := pyTruthy (dictGetNone fields name)
    let st : FieldStatus := ⟨spec.required, has_value, dictGetEmpty fields name⟩
    let acc := scoreLoop fields rest
    ((if has_value then 1 else 0) + acc.1,
     (if spec.required then 1 else 0) + acc.2.1,
     (if spec.required ∧ has_value then 1 else 0) + acc.2.2.1,
     (name, st) :: acc.2.2.2)

/-- `get_field_completion_status`, generalised over the schema the method
reads from `self`: the percentage formulas of lines 399-400, where the
unguarded division of line 399 raises `ZeroDivisionError` on an empty
schema (modelled as `Option.none`) while line 400 guards
`required_fields` explicitly. -/
def get_field_completion_status (sch : List (String × FieldSpec)) (fields : PyDict) :
    Option CompletionReport :=
  let acc := scoreLoop fields sch
  if sch.length = 0 then Option.none
  else some ⟨sch.length, acc.1, acc.2.1, acc.2.2.1, acc.2.2.2,
    ((acc.1 : Rat) / (sch.length : Rat)) * 100,
    if acc.2.1 > 0 then ((acc.2.2.1 : Rat) / (acc.2.1 : Rat)) * 100 else 0⟩

end PFE

namespace ADV
/-!  Embedding of `src/advanced_prescription_extractor.py`
(`AdvancedPrescriptionExtractor`).  -/

/-- The schema of `AdvancedPrescriptionExtractor.__init__` (type and
required flag; this schema carries no max lengths). -/
def advSchema : List (String × PFE.FieldType × Bool) :=
  [("patient_name", PFE.FieldType.string, true),
   ("patient_address", PFE.FieldType.string, false),
   ("patient_dob", PFE.FieldType.date, true),
   ("patient_age", PFE.FieldType.integer, true),
   ("patient_sex", PFE.FieldType.string, true),
   ("prescription_date", PFE.FieldType.date, true),
   ("doctor_name", PFE.FieldType.string, true),
   ("doctor_title", PFE.FieldType.string, true),
   ("clinic_address", PFE.FieldType.string, false),
   ("clinic_phone", PFE.FieldType.string, true),
   ("medicine_name", PFE.FieldType.string, true),
   ("medicine_dose", PFE.FieldType.string, true),
   ("medicine_frequency", PFE.FieldType.string, false),
   ("medicine_duration", PFE.FieldType.string, true),
   ("instructions", PFE.FieldType.text, true),
   ("immunization", PFE.FieldType.string, false),
   ("immunization_date", PFE.FieldType.date, false),
   ("is_allergic", PFE.FieldType.boolean, false),
   ("weight", PFE.FieldType.string, false),
   ("is_pregnant", PFE.FieldType.boolean, false)]

/-- Type default applied by `merge_extraction_results` when no strategy
supplied a value: `None` for boolean and integer fields, `""`
otherwise. -/
def defaultFor : PFE.FieldType → Value
  | PFE.FieldType.boolean => Value.vnone
  | PFE.FieldType.integer => Value.vnone
  | _ => Value.vstr ""

/-- The selection test of `merge_extraction_results`
(`field in result and result[field] and str(result[field]).strip()`):
the field is present, truthy, and its string form is non-empty after
stripping. -/
def suppliesVal (r : PyDict) (f : String) : Option Value :=
  match r.lookup f with
  | some v =>
    if pyTruthy v ∧ pyStrip (pyStr v) ≠ "" then some v else Option.none
  | Option.none => Option.none

/-- `merge_extraction_results`: for each schema field, the first value
(in the given execution order) passing the selection test
(`field_values[0]`), else the type default. -/
def merge_extraction_results (results : List PyDict) : PyDict :=
  advSchema.map (fun e =>
    (e.1, ((results.filterMap (fun r => suppliesVal r e.1)).head?).getD (defaultFor e.2.1)))

/-- Enhanced age pattern `(?:Age|age)[:\-\s]*(\d{1,3})` (the separator is
`*`, zero or more). -/
def enhAgeAnchor1 (s : List Char) : Option (List Char) := do
  let r1 ← chompLit "age".toList s
  let (_, r2) := chompWhile isSepChar r1
  repRange 1 3 Char.isDigit (fun ds _ => some ds) r2

/-- Enhanced age pattern `(\d{1,3})\s*(?:years?\s*old|y\.?o\.?)`. -/
def enhAgeAnchor2 (s : List Char) : Option (List Char) :=
  repRange 1 3 Char.isDigit (fun ds r1 =>
    let (_, r2) := chompWhile pyIsSpace r1
    let yearsBranch : Option Unit := do
      let r3 ← chompLit "year".toList r2
      let r4 := (optOne (fun c => charCI c 's') r3).2
      let (_, r5) := chompWhile pyIsSpace r4
      (chompLit "old".toList r5).map (fun _ => ())
    let yoBranch : Option Unit := do
      let r3 ← chompLit "y".toList r2
      let r4 := (optOne (fun c => c == '.') r3).2
      let r5 ← chompLit "o".toList r4
      let _ := (optOne (fun c => c == '.') r5).2
      some ()
    match yearsBranch <|> yoBranch with
    | some _ => some ds
    | Option.none => Option.none) s

/-- Enhanced age pattern `(?:under|age)\s*(\d{1,3})`. -/
def enhAgeAnchor3 (s : List Char) : Option (List Char) := do
  let r1 ← (chompLit "under".toList s) <|> (chompLit "age".toList s)
  let (_, r2) := chompWhile pyIsSpace r1
  repRange 1 3 Char.isDigit (fun ds _ => some ds) r2

/-- The raw match of the enhanced age loop: the first pattern (in source
order) with a match anywhere in the text. -/
def enhAgeMatch (t : List Char) : Option Nat :=
  ((reSearch enhAgeAnchor1 t) <|> (reSearch enhAgeAnchor2 t) <|>
    (reSearch enhAgeAnchor3 t)).map digitsToNat

/-- The age-extraction section of `_enhanced_regex_extraction`
(lines 338-351): the first matching pattern's value is kept only when
`0 < age < 120`; the loop breaks either way, so an out-of-range match
leaves the field unset rather than falling through or being clamped. -/
def enhancedAgeField (t : List Char) : Option Nat :=
  match enhAgeMatch t with
  | some a => if 0 < a ∧ a < 120 then some a else Option.none
  | Option.none => Option.none

/-- The partial mapping the age section contributes, after the method's
initial `text = ocr_text.strip()`. -/
def enhAgePartial (ocr_text : String) : PyDict :=
  match enhancedAgeField (pyStrip ocr_text).toList with
  | some a => [("patient_age", Value.vint (a : Int))]
  | Option.none => []

/-- Enhanced dose-unit alternation `(?:ml|mg|g|tablets?)`. -/
def enhDoseUnit (s : List Char) : Option (List Char × List Char) :=
  altCap ["ml", "mg", "g", "tablets", "tablet"] s

/-- Enhanced medicine pattern
`(?:Tr|Rx)\s+([A-Za-z]+)\s+(\d+\s*(?:ml|mg|g|tablets?))`. -/
def enhMedAnchor1 (s : List Char) : Option ((List Char × List Char) × List Char) := do
  let r1 ← (chompLit "tr".toList s) <|> (chompLit "rx".toList s)
  let (_, r2) ← chomp1 pyIsSpace r1
  let (nm, r3) ← chomp1 isLetterChar r2
  let (_, r4) ← chomp1 pyIsSpace r3
  let (d, r5) ← chomp1 Char.isDigit r4
  let (ws, r6) := chompWhile pyIsSpace r5
  let (u, r7) ← enhDoseUnit r6
  some ((nm, d ++ ws ++ u), r7)

/-- Enhanced medicine pattern `([A-Za-z]+)\s+(\d+\s*(?:ml|mg|g|tablets?))`. -/
def enhMedAnchor2 (s : List Char) : Option ((List Char × List Char) × List Char) := do
  let (nm, r1) ← chomp1 isLetterChar s
  let (_, r2) ← chomp1 pyIsSpace r1
  let (d, r3) ← chomp1 Char.isDigit r2
  let (ws, r4) := chompWhile pyIsSpace r3
  let (u, r5) ← enhDoseUnit r4
  some ((nm, d ++ ws ++ u), r5)

/-- The stop-word list the enhanced medicine loop filters out. -/
def stopWords : List String := ["and", "or", "with", "the", "a", "an"]

/-- ASCII lower-casing of a string (`str.lower()`). -/
def lowerStr (s : String) : String := String.mk (s.toList.map Char.toLower)

/-- All `finditer` matches of the two two-group enhanced medicine
patterns in source order (the third pattern,
`Medicine[:\-\s]*([A-Za-z\s,]+)`, has a single group, so the
`len(match.groups()) >= 2` guard discards all of its matches). -/
def enhMedMatches (t : List Char) : List (String × String) :=
  (reFindIter enhMedAnchor1 t ++ reFindIter enhMedAnchor2 t).map
    (fun pr => (pyStrip (String.mk pr.1), pyStrip (String.mk pr.2)))

/-- The medicine collection loop of `_enhanced_regex_extraction`
(lines 306-316): names and doses are appended in lockstep, skipping
stop-word names. -/
def enhMedPairs (t : List Char) : List (String × String) :=
  (enhMedMatches t).filter (fun pr => !(stopWords.contains (lowerStr pr.1)))

/-- The medicine-name list of the enhanced loop. -/
def enhMedicines (t : List Char) : List String :=
  (enhMedPairs t).map (fun pr => pr.1)

/-- The dose list of the enhanced loop. -/
def enhDoses (t : List Char) : List String :=
  (enhMedPairs t).map (fun pr => pr.2)

/-- The partial mapping the medicine section of
`_enhanced_regex_extraction` contributes (lines 299-320): both joined
fields when any medicine was collected, nothing otherwise; no
deduplication. -/
def enhMedPartial (ocr_text : String) : PyDict :=
  let t := (pyStrip ocr_text).toList
  if (enhMedicines t).isEmpty then []
  else
    [("medicine_name", Value.vstr (String.intercalate ", " (enhMedicines t))),
     ("medicine_dose", Value.vstr (String.intercalate ", " (enhDoses t)))]

end ADV

namespace EPF
/-!  Embedding of the medicine section of
`src/extract_prescription_fields.py` (`extract_prescription_fields`,
lines 94-112).  -/

/-- Pattern `Tr\s+(\w+)\s+(\d+\s*ml)`; payload is (group 1, group 2). -/
def epfMedAnchor1 (s : List Char) : Option ((List Char × List Char) × List Char) := do
  let r1 ← chompLit "tr".toList s
  let (_, r2) ← chomp1 pyIsSpace r1
  let (nm, r3) ← chomp1 isWordChar r2
  let (_, r4) ← chomp1 pyIsSpace r3
  let (d, r5) ← chomp1 Char.isDigit r4
  let (ws, r6) := chompWhile pyIsSpace r5
  let (ml, r7) ← altCap ["ml"] r6
  some ((nm, d ++ ws ++ ml), r7)

/-- Pattern `(\w+)\s+(\w+)\s+(\d+\s*ml)`; this script appends
`match.group(2)` — the middle word, not the dose — to the dose list. -/
def epfMedAnchor2 (s : List Char) : Option ((List Char × List Char) × List Char) := do
  let (nm, r1) ← chomp1 isWordChar s
  let (_, r2) ← chomp1 pyIsSpace r1
  let (w2, r3) ← chomp1 isWordChar r2
  let (_, r4) ← chomp1 pyIsSpace r3
  let (_, r5) ← chomp1 Char.isDigit r4
  let (_, r6) := chompWhile pyIsSpace r5
  let (_, r7) ← altCap ["ml"] r6
  some ((nm, w2), r7)

/-- The medicine collection loop of `extract_prescription_fields`: both
lists appended in lockstep per match, no stop-word filter, no
deduplication. -/
def epfMedPairs (t : List Char) : List (String × String) :=
  (reFindIter epfMedAnchor1 t ++ reFindIter epfMedAnchor2 t).map
    (fun pr => (String.mk pr.1, String.mk pr.2))

/-- The medicine-name list of `extract_prescription_fields`. -/
def epfMedicines (t : List Char) : List String :=
  (epfMedPairs t).map (fun pr => pr.1)

/-- The dose list of `extract_prescription_fields`. -/
def epfDoses (t : List Char) : List String :=
  (epfMedPairs t).map (fun pr => pr.2)

end EPF

/-!  Helper lemmas.  -/

/-- Every character emitted by the whitespace-collapsing pass is either a
plain space or a non-whitespace character of the input. -/
theorem collapseWsGo_chars (fuel : Nat) :
    ∀ l : List Char, ∀ c ∈ PFE.collapseWsGo fuel l, c = ' ' ∨ pyIsSpace c = false := by
  induction fuel with
  | zero => intro l c hc; simp [PFE.collapseWsGo] at hc
  | succ n ih =>
    intro l c hc
    cases l with
    | nil => simp [PFE.collapseWsGo] at hc
    | cons a rest =>
      rw [PFE.collapseWsGo] at hc
      by_cases h : pyIsSpace a
      · rw [if_pos h] at hc
        rcases List.mem_cons.mp hc with h1 | h2
        · exact Or.inl h1
        · exact ih _ c h2
      · rw [if_neg h] at hc
        rcases List.mem_cons.mp hc with h1 | h2
        · exact Or.inr (h1 ▸ Bool.not_eq_true _ ▸ Bool.of_not_eq_true h)
        · exact ih _ c h2

/-- Characters of a cleaned text: only plain spaces or non-whitespace. -/
theorem clean_text_chars (t : String) :
    ∀ c ∈ (PFE.clean_text t).toList, c = ' ' ∨ pyIsSpace c = false := by
  intro c hc
  unfold PFE.clean_text at hc
  by_cases h : t.isEmpty
  · rw [if_pos h] at hc; simp at hc
  · rw [if_neg h] at hc
    exact collapseWsGo_chars _ _ c hc

/-- `takeWhile` is the identity on lists all of whose elements satisfy
the predicate. -/
theorem takeWhile_eq_self_of_all {p : Char → Bool} :
    ∀ l : List Char, (∀ c ∈ l, p c = true) → l.takeWhile p = l
  | [], _ => rfl
  | c :: rest, h => by
    rw [List.takeWhile_cons, h c (by simp)]
    simp [takeWhile_eq_self_of_all rest (fun x hx => h x (by simp [hx]))]

/-- The validator re-emits every entry under its own key. -/
theorem map_fst_validate :
    ∀ d : PyDict, (PFE.validate_and_format_fields d).map Prod.fst = d.map Prod.fst
  | [] => rfl
  | kv :: rest => by
    have ih := map_fst_validate rest
    unfold PFE.validate_and_format_fields at ih ⊢
    cases h : PFE.schema.lookup kv.1 <;> simp [h, ih]

/-- `setKey` on a present key preserves the key list. -/
theorem map_fst_setKey :
    ∀ (d : PyDict) (k : String) (v : Value), k ∈ d.map Prod.fst →
      (setKey d k v).map Prod.fst = d.map Prod.fst
  | [], k, v, h => by simp at h
  | (k0, v0) :: rest, k, v, h => by
    by_cases hk : k0 = k
    · subst hk; simp [setKey]
    · have hbeq : (k0 == k) = false := beq_eq_false_iff_ne.mpr hk
      have hmem : k ∈ rest.map Prod.fst := by
        rcases List.mem_cons.mp h with h1 | h2
        · exact absurd h1.symm hk
        · exact h2
      simp [setKey, hbeq, map_fst_setKey rest k v hmem]

/-- `dictUpdate` with keys already present preserves the key list. -/
theorem map_fst_dictUpdate :
    ∀ (u d : PyDict), (∀ k ∈ u.map Prod.fst, k ∈ d.map Prod.fst) →
      (dictUpdate d u).map Prod.fst = d.map Prod.fst
  | [], _, _ => rfl
  | kv :: rest, d, h => by
    have h0 : kv.1 ∈ d.map Prod.fst := h kv.1 (by simp)
    have hset := map_fst_setKey d kv.1 kv.2 h0
    have hrest : ∀ k ∈ rest.map Prod.fst, k ∈ (setKey d kv.1 kv.2).map Prod.fst := by
      intro k hk
      rw [hset]
      exact h k (by simp [hk])
    calc (dictUpdate d (kv :: rest)).map Prod.fst
        = (dictUpdate (setKey d kv.1 kv.2) rest).map Prod.fst := rfl
      _ = (setKey d kv.1 kv.2).map Prod.fst := map_fst_dictUpdate rest _ hrest
      _ = d.map Prod.fst := hset

/-- The doctor extractor always returns exactly its two keys. -/
theorem map_fst_doctor (text : String) :
    (PFE.extract_doctor_info text).map Prod.fst = ["doctor_name", "doctor_title"] := by
  unfold PFE.extract_doctor_info
  rcases reSearch PFE.docAnchor1 text.toList with _ | ⟨nm, ttl⟩
  · rcases reSearch PFE.docAnchor2 text.toList with _ | nm
    · rcases reSearch PFE.docAnchor3 text.toList with _ | nm <;> rfl
    · rfl
  · rfl

/-!  Claim theorems.  -/

/-- Claim C3: for every input text, including the empty string,
`extract_all_fields` returns a mapping whose key list is exactly the
Schema's field-name list — no field missing and no extra field. -/
theorem extract_all_fields_schema_keys (t : String) :
    (PFE.extract_all_fields t).map Prod.fst = PFE.schema.map Prod.fst := by
  unfold PFE.extract_all_fields PFE.extractFieldsCleaned
  set txt := PFE.clean_text t with htxt
  rw [map_fst_validate]
  set d1 := setKey (PFE.schema.map fun e => (e.1, Value.vstr ""))
    "patient_name" (Value.vstr (PFE.extract_patient_name txt)) with hd1
  set d2 := dictUpdate d1 (PFE.extract_dates txt) with hd2
  set d3 := dictUpdate d2 (PFE.extract_patient_demographics txt) with hd3
  set d4 := dictUpdate d3 (PFE.extract_doctor_info txt) with hd4
  set d5 := dictUpdate d4 (PFE.extract_clinic_info txt) with hd5
  set d6 := dictUpdate d5 (PFE.extract_medication_info txt) with hd6
  have hinit : (PFE.schema.map fun e => (e.1, Value.vstr "")).map Prod.fst
      = PFE.schema.map Prod.fst := by
    rw [List.map_map]; rfl
  have h1 : d1.map Prod.fst = PFE.schema.map Prod.fst := by
    rw [hd1, map_fst_setKey _ _ _ (by rw [hinit]; decide), hinit]
  have hdates : (PFE.extract_dates txt).map Prod.fst =
      ["prescription_date", "patient_dob", "immunization_date"] := rfl
  have h2 : d2.map Prod.fst = PFE.schema.map Prod.fst := by
    rw [hd2, map_fst_dictUpdate _ _ (by rw [hdates, h1]; decide), h1]
  have hdemo : (PFE.extract_patient_demographics txt).map Prod.fst =
      ["patient_age", "patient_sex", "weight"] := rfl
  have h3 : d3.map Prod.fst = PFE.schema.map Prod.fst := by
    rw [hd3, map_fst_dictUpdate _ _ (by rw [hdemo, h2]; decide), h2]
  have h4 : d4.map Prod.fst = PFE.schema.map Prod.fst := by
    rw [hd4, map_fst_dictUpdate _ _ (by rw [map_fst_doctor, h3]; decide), h3]
  have hclinic : (PFE.extract_clinic_info txt).map Prod.fst =
      ["clinic_address", "clinic_phone"] := rfl
  have h5 : d5.map Prod.fst = PFE.schema.map Prod.fst := by
    rw [hd5, map_fst_dictUpdate _ _ (by rw [hclinic, h4]; decide), h4]
  have hmed : (PFE.extract_medication_info txt).map Prod.fst =
      ["medicine_name", "medicine_dose", "medicine_frequency", "medicine_duration",
       "instructions"] := rfl
  have h6 : d6.map Prod.fst = PFE.schema.map Prod.fst := by
    rw [hd6, map_fst_dictUpdate _ _ (by rw [hmed, h5]; decide), h5]
  have hspec : (PFE.extract_special_conditions txt).map Prod.fst =
      ["is_allergic", "is_pregnant", "immunization", "immunization_date"] := rfl
  rw [map_fst_dictUpdate _ _ (by rw [hspec, h6]; decide), h6]

/-- Claim C10: `extract_all_fields` first trims its input and collapses
every internal whitespace run — newlines included — to a single space,
and only then applies the field patterns; hence the text the patterns
see never contains a newline, and a capture delimited by a line end
(the `(.*?)(?:\n|$)` tails of the instruction and clinic patterns,
embedded as `captureToLineEnd`) runs from any match position to the end
of the whole cleaned document rather than the end of the original
line. -/
theorem clean_text_then_extract (t : String) (i : Nat) :
    PFE.extract_all_fields t = PFE.extractFieldsCleaned (PFE.clean_text t)
  ∧ (∀ c ∈ (PFE.clean_text t).toList, c = ' ' ∨ pyIsSpace c = false)
  ∧ '\n' ∉ (PFE.clean_text t).toList
  ∧ captureToLineEnd ((PFE.clean_text t).toList.drop i) =
      (PFE.clean_text t).toList.drop i := by
  have hchars := clean_text_chars t
  have hnl : '\n' ∉ (PFE.clean_text t).toList := by
    intro hmem
    rcases hchars '\n' hmem with h | h
    · exact absurd h (by decide)
    · exact absurd h (by decide)
  refine ⟨rfl, hchars, hnl, ?_⟩
  apply takeWhile_eq_self_of_all
  intro c hc
  have hin := List.mem_of_mem_drop hc
  rcases hchars c hin with h | h
  · subst h; decide
  · have hne : c ≠ '\n' := by
      intro hc'
      subst hc'
      simp [pyIsSpace] at h
    simp [hne]

/-- Witness for C10 at a concrete input with an internal newline. -/
theorem clean_text_then_extract_witness :
    (' ' = ' ' ∨ pyIsSpace ' ' = false) ∧ '\n' ∉ (PFE.clean_text "a\nb").toList :=
  ⟨(clean_text_then_extract "a\nb" 0).2.1 ' ' (by decide),
   (clean_text_then_extract "a\nb" 0).2.2.1⟩

/-- The completed-fields counter of the score loop counts exactly the
truthy fields. -/
theorem scoreLoop_completed (fields : PyDict) :
    ∀ sch : List (String × PFE.FieldSpec),
      (PFE.scoreLoop fields sch).1 =
        sch.countP (fun e => pyTruthy (dictGetNone fields e.1))
  | [] => rfl
  | e :: rest => by
    have ih := scoreLoop_completed fields rest
    simp only [PFE.scoreLoop, List.countP_cons, ih]
    by_cases h : pyTruthy (dictGetNone fields e.1) <;> simp [h] <;> omega

/-- The required-fields counter of the score loop counts the required
schema entries (independently of the record). -/
theorem scoreLoop_required (fields : PyDict) :
    ∀ sch : List (String × PFE.FieldSpec),
      (PFE.scoreLoop fields sch).2.1 = sch.countP (fun e => e.2.required)
  | [] => rfl
  | e :: rest => by
    have ih := scoreLoop_required fields rest
    simp only [PFE.scoreLoop, List.countP_cons, ih]
    by_cases h : e.2.required <;> simp [h] <;> omega

/-- The required-completed counter counts required entries with truthy
values. -/
theorem scoreLoop_required_completed (fields : PyDict) :
    ∀ sch : List (String × PFE.FieldSpec),
      (PFE.scoreLoop fields sch).2.2.1 =
        sch.countP (fun e => e.2.required && pyTruthy (dictGetNone fields e.1))
  | [] => rfl
  | e :: rest => by
    have ih := scoreLoop_required_completed fields rest
    simp only [PFE.scoreLoop, List.countP_cons, ih]
    by_cases h1 : e.2.required <;> by_cases h2 : pyTruthy (dictGetNone fields e.1) <;>
      simp [h1, h2] <;> omega

/-- The status list of the score loop is the schema mapped to per-field
statuses. -/
theorem scoreLoop_status (fields : PyDict) :
    ∀ sch : List (String × PFE.FieldSpec),
      (PFE.scoreLoop fields sch).2.2.2 =
        sch.map (fun e =>
          (e.1, (⟨e.2.required, pyTruthy (dictGetNone fields e.1),
                  dictGetEmpty fields e.1⟩ : PFE.FieldStatus)))
  | [] => rfl
  | e :: rest => by
    have ih := scoreLoop_status fields rest
    simp only [PFE.scoreLoop, List.map_cons, ih]

/-- Lookup in a key-preserving map over an association list with distinct
keys. -/
theorem lookup_map_of_mem {β γ : Type} (g : String × β → γ) :
    ∀ (l : List (String × β)) (f : String) (b : β),
      (f, b) ∈ l → (l.map Prod.fst).Nodup →
      (l.map (fun e => (e.1, g e))).lookup f = some (g (f, b))
  | [], f, b, hmem, _ => by simp at hmem
  | e :: rest, f, b, hmem, hnd => by
    rcases List.mem_cons.mp hmem with h1 | h2
    · subst h1
      simp [List.lookup]
    · have hmap : f ∈ rest.map Prod.fst := List.mem_map.mpr ⟨(f, b), h2, rfl⟩
      have hnd' := List.nodup_cons.mp hnd
      have hne : f ≠ e.1 := fun heq => hnd'.1 (heq ▸ hmap)
      have hbeq : (f == e.1) = false := beq_eq_false_iff_ne.mpr hne
      simp only [List.map_cons, List.lookup, hbeq]
      exact lookup_map_of_mem g rest f b h2 hnd'.2

/-- Claim C1 (amended): a field is marked completed iff its resolved
value is truthy in Python's sense — a non-empty string with no
whitespace trimming, a non-zero integer, or the boolean `true`; the
boolean `false` and `None` do not count — and `completed_fields` is the
count of fields passing that truthiness test. -/
theorem completion_counts_truthy (fields : PyDict) :
    ∃ rep, PFE.get_field_completion_status PFE.schema fields = some rep
      ∧ rep.completed_fields =
          PFE.schema.countP (fun e => pyTruthy (dictGetNone fields e.1))
      ∧ ∀ nm spec, (nm, spec) ∈ PFE.schema →
          rep.field_status.lookup nm =
            some ⟨spec.required, pyTruthy (dictGetNone fields nm),
                  dictGetEmpty fields nm⟩ := by
  unfold PFE.get_field_completion_status
  rw [if_neg (by decide : ¬(PFE.schema.length = 0))]
  refine ⟨_, rfl, scoreLoop_completed fields PFE.schema, ?_⟩
  intro nm spec hmem
  show (PFE.scoreLoop fields PFE.schema).2.2.2.lookup nm = _
  rw [scoreLoop_status fields PFE.schema]
  exact lookup_map_of_mem _ PFE.schema nm spec hmem (by decide)

/-- Witness for C1's amended theorem at the empty record. -/
theorem completion_counts_truthy_witness :
    ∃ rep, PFE.get_field_completion_status PFE.schema [] = some rep
      ∧ rep.field_status.lookup "patient_name" =
          some ⟨true, false, Value.vstr ""⟩ := by
  obtain ⟨rep, h1, _, h3⟩ := completion_counts_truthy []
  refine ⟨rep, h1, ?_⟩
  have h4 := h3 "patient_name" ⟨PFE.FieldType.string, some 100, true⟩ (by decide)
  rw [h4]
  rfl

/-- Counterexample to C1 as stated: with `is_allergic = False` the field
is *not* marked completed although its value is non-null, and with
`patient_name = " "` the field *is* marked completed although its value
trims to empty; `completed_fields` is 1, not the trim-non-empty count. -/
theorem completion_counts_truthy_cex :
    (PFE.get_field_completion_status PFE.schema
        [("is_allergic", Value.vbool false), ("patient_name", Value.vstr " ")]).map
      (fun rep => (rep.completed_fields,
        rep.field_status.lookup "is_allergic",
        rep.field_status.lookup "patient_name"))
    = some (1, some ⟨false, false, Value.vbool false⟩,
        some ⟨true, true, Value.vstr " "⟩) := by decide

/-- Claim C9: the completion scorer is total on the program's schema and
computes `completion_percentage = completed_fields / total_fields * 100`
and `required_completion_percentage = required_completed /
required_fields * 100`, the latter defined as `0` — not a division
error — when the schema has no required field. -/
theorem scorer_total_and_formulas :
    (∀ fields : PyDict, ∃ rep : PFE.CompletionReport,
        PFE.get_field_completion_status PFE.schema fields = some rep
        ∧ rep.completion_percentage =
            ((rep.completed_fields : Rat) / (rep.total_fields : Rat)) * 100
        ∧ rep.required_completion_percentage =
            ((rep.required_completed : Rat) / (rep.required_fields : Rat)) * 100)
  ∧ (∀ (sch : List (String × PFE.FieldSpec)) (fields : PyDict)
        (rep : PFE.CompletionReport),
        sch.countP (fun e => e.2.required) = 0 →
        PFE.get_field_completion_status sch fields = some rep →
        rep.required_completion_percentage = 0) := by
  constructor
  · intro fields
    have hr := scoreLoop_required fields PFE.schema
    unfold PFE.get_field_completion_status
    generalize hacc : PFE.scoreLoop fields PFE.schema = acc
    rw [hacc] at hr
    have hr12 : acc.2.1 = 12 := by rw [hr]; decide
    rw [if_neg (by decide : ¬(PFE.schema.length = 0)), hr12,
        if_pos (by decide : (12 : Nat) > 0)]
    exact ⟨_, rfl, rfl, rfl⟩
  · intro sch fields rep h0 hget
    have hr := scoreLoop_required fields sch
    unfold PFE.get_field_completion_status at hget
    generalize hacc : PFE.scoreLoop fields sch = acc at hget hr
    rw [h0] at hr
    by_cases hl : sch.length = 0
    · rw [if_pos hl] at hget
      exact absurd hget (by simp)
    · rw [if_neg hl, hr] at hget
      have hrep := (Option.some.injEq _ _).mp hget
      rw [← hrep]
      simp

/-- Witness for C9's zero-required-fields guard on a schema with a single
optional field. -/
theorem scorer_total_and_formulas_witness :
    (PFE.get_field_completion_status
        [("note", (⟨PFE.FieldType.string, Option.none, false⟩ : PFE.FieldSpec))] []).map
      (fun rep => rep.required_completion_percentage) = some 0 := by
  have hg : PFE.get_field_completion_status
      [("note", (⟨PFE.FieldType.string, Option.none, false⟩ : PFE.FieldSpec))] []
      = some ⟨1, 0, 0, 0, [("note", ⟨false, false, Value.vstr ""⟩)],
          (((0 : Nat) : Rat) / ((1 : Nat) : Rat)) * 100, 0⟩ := rfl
  have h := scorer_total_and_formulas.2
    [("note", ⟨PFE.FieldType.string, Option.none, false⟩)] [] _ (by decide) hg
  rw [hg]
  exact congrArg some h

/-- Claim C2: the merger resolves each schema field to the value of the
first result, in execution order, whose value for that field passes the
non-empty-after-trimming test (`suppliesVal`); when no result supplies
such a value the field gets its type default (empty string for
string/text/date, null for integer/boolean); and merging
`[{patient_name: ""}, {patient_name: "Jane Doe"}, {patient_name:
"Other"}]` yields `patient_name == "Jane Doe"`. -/
theorem merge_first_nonempty_wins
    (f : String) (ty : PFE.FieldType) (req : Bool)
    (hmem : (f, (ty, req)) ∈ ADV.advSchema)
    (pre post : List PyDict) (r : PyDict) (v : Value)
    (hpre : ∀ r0 ∈ pre, ADV.suppliesVal r0 f = Option.none)
    (hr : ADV.suppliesVal r f = some v)
    (rs : List PyDict)
    (hrs : ∀ r0 ∈ rs, ADV.suppliesVal r0 f = Option.none) :
    (ADV.merge_extraction_results (pre ++ r :: post)).lookup f = some v
  ∧ (ADV.merge_extraction_results rs).lookup f = some (ADV.defaultFor ty)
  ∧ (ADV.merge_extraction_results
      [[("patient_name", Value.vstr "")], [("patient_name", Value.vstr "Jane Doe")],
       [("patient_name", Value.vstr "Other")]]).lookup "patient_name"
      = some (Value.vstr "Jane Doe") := by
  refine ⟨?_, ?_, by decide⟩
  · have hlk := lookup_map_of_mem
      (fun e =>
        ((((pre ++ r :: post)).filterMap (fun r0 => ADV.suppliesVal r0 e.1)).head?).getD
          (ADV.defaultFor e.2.1))
      ADV.advSchema f (ty, req) hmem (by decide)
    refine hlk.trans ?_
    show some ((((pre ++ r :: post)).filterMap
        (fun r0 => ADV.suppliesVal r0 f)).head?.getD (ADV.defaultFor ty)) = some v
    have hfm : (pre ++ r :: post).filterMap (fun r0 => ADV.suppliesVal r0 f)
        = v :: post.filterMap (fun r0 => ADV.suppliesVal r0 f) := by
      rw [List.filterMap_append, List.filterMap_eq_nil_iff.mpr hpre]
      simp [List.filterMap_cons, hr]
    rw [hfm]
    rfl
  · have hlk := lookup_map_of_mem
      (fun e =>
        ((rs.filterMap (fun r0 => ADV.suppliesVal r0 e.1)).head?).getD
          (ADV.defaultFor e.2.1))
      ADV.advSchema f (ty, req) hmem (by decide)
    refine hlk.trans ?_
    show some ((rs.filterMap (fun r0 => ADV.suppliesVal r0 f)).head?.getD
        (ADV.defaultFor ty)) = some (ADV.defaultFor ty)
    rw [List.filterMap_eq_nil_iff.mpr hrs]
    rfl

/-- Witness for C2 at the specification's three-result example. -/
theorem merge_first_nonempty_wins_witness :
    (ADV.merge_extraction_results
        [[("patient_name", Value.vstr "")], [("patient_name", Value.vstr "Jane Doe")],
         [("patient_name", Value.vstr "Other")]]).lookup "patient_name"
      = some (Value.vstr "Jane Doe")
  ∧ (ADV.merge_extraction_results []).lookup "patient_age" = some Value.vnone := by
  constructor
  · exact (merge_first_nonempty_wins "patient_name" PFE.FieldType.string true (by decide)
      [[("patient_name", Value.vstr "")]] [[("patient_name", Value.vstr "Other")]]
      [("patient_name", Value.vstr "Jane Doe")] (Value.vstr "Jane Doe")
      (by decide) (by decide) [] (by simp)).1
  · exact (merge_first_nonempty_wins "patient_age" PFE.FieldType.integer true (by decide)
      [] [] [("patient_age", Value.vint 1)] (Value.vint 1)
      (by simp) (by decide) [] (by simp)).2.1

/-- Claim C4 (amended): only the advanced pipeline's enhanced regex
strategy range-validates ages — a match is kept only when
`0 < age < 120`, an out-of-range match is discarded (the field stays
unset, not clamped) so `"Age: 200"` contributes nothing and merges to
null, while `"45 years old"` yields 45; the basic
`extract_patient_demographics` performs no range validation. -/
theorem enhanced_age_range (t : List Char) (a : Nat)
    (h : ADV.enhancedAgeField t = some a) :
    (0 < a ∧ a < 120)
  ∧ ADV.enhAgePartial "Age: 200" = []
  ∧ (ADV.merge_extraction_results [ADV.enhAgePartial "Age: 200"]).lookup "patient_age"
      = some Value.vnone
  ∧ ADV.enhAgePartial "45 years old" = [("patient_age", Value.vint 45)] := by
  refine ⟨?_, by decide, by decide, by decide⟩
  unfold ADV.enhancedAgeField at h
  cases hm : ADV.enhAgeMatch t with
  | none => rw [hm] at h; exact absurd h (by simp)
  | some b =>
    rw [hm] at h
    change (if 0 < b ∧ b < 120 then some b else Option.none) = some a at h
    by_cases hb : 0 < b ∧ b < 120
    · rw [if_pos hb] at h
      have := (Option.some.injEq _ _).mp h
      omega
    · rw [if_neg hb] at h
      exact absurd h (by simp)

/-- Witness for C4's amended theorem at `"45 years old"`. -/
theorem enhanced_age_range_witness :
    ADV.enhancedAgeField "45 years old".toList = some 45 ∧ (0 < 45 ∧ 45 < 120) :=
  ⟨by decide, (enhanced_age_range "45 years old".toList 45 (by decide)).1⟩

/-- Counterexample to C4 as stated: the basic pattern extractor cited by
the claim accepts the out-of-range match — `extract_all_fields` on
`"Age: 200"` stores `patient_age = 200` instead of leaving it null. -/
theorem basic_age_no_range_check_cex :
    (PFE.extract_all_fields "Age: 200").lookup "patient_age"
      = some (Value.vint 200) := by decide

/-- Claim C5: the code evaluated at the failing input — for text
containing both the substring and the negation shape (`"no allergies
and not pregnant"`), the substring branch fires first and the negation
`elif` is unreachable, so both flags are `True`, not `False`. -/
theorem special_conditions_negation_dead :
    PFE.extract_special_conditions "no allergies and not pregnant"
      = [("is_allergic", Value.vbool true), ("is_pregnant", Value.vbool true),
         ("immunization", Value.vstr ""), ("immunization_date", Value.vstr "")] := by
  decide

/-- Claim C6 (amended): the medicine loops collect each
`⟨word⟩ ⟨dose-with-unit⟩` match into parallel lockstep lists, so the
advanced pipeline's enhanced regex loop (which filters the stop-words
and/or/with/the/a/an and does not deduplicate) and the basic
`extract_prescription_fields` loop (no filter, no deduplication) always
produce equally many names and doses in corresponding order; the
enhanced `PrescriptionFieldExtractor` pipeline instead deduplicates the
name list through `set` while leaving doses untouched, so its joined
entry counts can differ (see the counterexample). -/
theorem medicine_parallel_lists (t : List Char) :
    (ADV.enhMedicines t).length = (ADV.enhDoses t).length
  ∧ (∀ m ∈ ADV.enhMedicines t, ADV.stopWords.contains (ADV.lowerStr m) = false)
  ∧ (EPF.epfMedicines t).length = (EPF.epfDoses t).length := by
  refine ⟨by simp [ADV.enhMedicines, ADV.enhDoses], ?_,
    by simp [EPF.epfMedicines, EPF.epfDoses]⟩
  intro m hm
  rcases List.mem_map.mp hm with ⟨pr, hpr, hm1⟩
  have h2 := (List.mem_filter.mp hpr).2
  rw [← hm1]
  simpa using h2

/-- Witness for C6's amended theorem on a concrete text. -/
theorem medicine_parallel_lists_witness :
    "Aspirin" ∈ ADV.enhMedicines "Aspirin 100 mg".toList
  ∧ ADV.stopWords.contains (ADV.lowerStr "Aspirin") = false :=
  ⟨by decide,
   (medicine_parallel_lists "Aspirin 100 mg".toList).2.1 "Aspirin" (by decide)⟩

/-- Counterexample to C6 as stated: in `extract_medication_info` the
pairs are collected in lockstep, but the name list is then deduplicated
via `set` while the dose list is not, so the joined `medicine_name`
holds one entry while `medicine_dose` holds two. -/
theorem medicine_dedup_cex :
    PFE.medPairs "Aspirin 100 mg Aspirin 200 mg".toList
      = [("Aspirin", "100 mg"), ("Aspirin", "200 mg")]
  ∧ (PFE.extract_medication_info "Aspirin 100 mg Aspirin 200 mg").lookup "medicine_name"
      = some (Value.vstr "Aspirin")
  ∧ (PFE.extract_medication_info "Aspirin 100 mg Aspirin 200 mg").lookup "medicine_dose"
      = some (Value.vstr "100 mg, 200 mg") := by decide

/-- Claim C7: the validator coerces and truncates per schema type —
string/text values longer than the configured `max_length` are cut to
exactly `max_length` characters (here `patient_name` at 100), integer
parsing failure yields null rather than an exception, booleans are kept
only when already boolean-typed (anything else becomes null), and dates
are kept as literal strings; the validator is a total function, so no
coercion failure escapes it. -/
theorem validator_coercion_truncation :
    (PFE.schema.lookup "patient_name" = some ⟨PFE.FieldType.string, some 100, true⟩
      ∧ PFE.schema.lookup "patient_age" = some ⟨PFE.FieldType.integer, Option.none, true⟩
      ∧ PFE.schema.lookup "is_allergic" = some ⟨PFE.FieldType.boolean, Option.none, false⟩
      ∧ PFE.schema.lookup "patient_dob" = some ⟨PFE.FieldType.date, Option.none, true⟩)
  ∧ (∀ s : String, 100 < s.length →
      PFE.validateValue ⟨PFE.FieldType.string, some 100, true⟩ (Value.vstr s)
        = Value.vstr (String.mk (s.toList.take 100))
      ∧ (String.mk (s.toList.take 100)).length = 100)
  ∧ (∀ s : String, pyParseInt s = Option.none →
      PFE.validateValue ⟨PFE.FieldType.integer, Option.none, true⟩ (Value.vstr s)
        = Value.vnone)
  ∧ (∀ b : Bool,
      PFE.validateValue ⟨PFE.FieldType.boolean, Option.none, false⟩ (Value.vbool b)
        = Value.vbool b)
  ∧ (∀ n : Int,
      PFE.validateValue ⟨PFE.FieldType.boolean, Option.none, false⟩ (Value.vint n)
        = Value.vnone)
  ∧ (∀ s : String, s ≠ "" →
      PFE.validateValue ⟨PFE.FieldType.date, Option.none, true⟩ (Value.vstr s)
        = Value.vstr s) := by
  refine ⟨⟨rfl, rfl, rfl, rfl⟩, ?_, ?_, ?_, ?_, ?_⟩
  · intro s hs
    have hne : s ≠ "" := by
      intro h0
      rw [h0] at hs
      exact absurd hs (by decide)
    have hemp : s.isEmpty = false := by
      cases h : s.isEmpty with
      | false => rfl
      | true => exact absurd ((String.isEmpty_iff s).mp h) hne
    constructor
    · unfold PFE.validateValue
      rw [if_neg (by simp [pyTruthy, hemp])]
      show (if s.length > 100 then _ else _) = _
      rw [if_pos (by omega)]
      rfl
    · rw [String.mk_length, List.length_take]
      have : s.toList.length = s.length := rfl
      omega
  · intro s hp
    by_cases hs : s = ""
    · subst hs; rfl
    · have hemp : s.isEmpty = false := by
        cases h : s.isEmpty with
        | false => rfl
        | true => exact absurd ((String.isEmpty_iff s).mp h) hs
      unfold PFE.validateValue
      rw [if_neg (by simp [pyTruthy, hemp])]
      show (if pyTruthy (Value.vstr s) = true then _ else _) = _
      rw [if_pos (by simp [pyTruthy, hemp])]
      show (match pyIntOfValue (Value.vstr s) with
            | some n => Value.vint n
            | Option.none => Value.vnone) = _
      rw [show pyIntOfValue (Value.vstr s) = pyParseInt s from rfl, hp]
  · intro b
    cases b <;> rfl
  · intro n
    by_cases hn : n = 0
    · subst hn; rfl
    · have hbeq : (n == 0) = false := beq_eq_false_iff_ne.mpr hn
      unfold PFE.validateValue
      rw [if_neg (by simp [pyTruthy, hbeq])]
  · intro s hs
    have hemp : s.isEmpty = false := by
      cases h : s.isEmpty with
      | false => rfl
      | true => exact absurd ((String.isEmpty_iff s).mp h) hs
    unfold PFE.validateValue
    rw [if_neg (by simp [pyTruthy, hemp])]
    show (if pyTruthy (Value.vstr s) = true then _ else _) = _
    rw [if_pos (by simp [pyTruthy, hemp])]
    rfl

set_option maxRecDepth 4000 in
/-- Witness for C7 at concrete values: a 150-character name is truncated
to 100 characters, `"abc"` fails integer parsing and becomes null, and a
date literal is kept verbatim. -/
theorem validator_coercion_truncation_witness :
    (100 < (String.mk (List.replicate 150 'a')).length
      ∧ PFE.validateValue ⟨PFE.FieldType.string, some 100, true⟩
          (Value.vstr (String.mk (List.replicate 150 'a')))
          = Value.vstr (String.mk ((String.mk (List.replicate 150 'a')).toList.take 100)))
  ∧ (pyParseInt "abc" = Option.none
      ∧ PFE.validateValue ⟨PFE.FieldType.integer, Option.none, true⟩ (Value.vstr "abc")
          = Value.vnone)
  ∧ ("23 JAN 99" ≠ ""
      ∧ PFE.validateValue ⟨PFE.FieldType.date, Option.none, true⟩
          (Value.vstr "23 JAN 99") = Value.vstr "23 JAN 99") :=
  ⟨⟨by decide,
    (validator_coercion_truncation.2.1 (String.mk (List.replicate 150 'a')) (by decide)).1⟩,
   ⟨rfl, validator_coercion_truncation.2.2.1 "abc" rfl⟩,
   ⟨by decide, validator_coercion_truncation.2.2.2.2.2 "23 JAN 99" (by decide)⟩⟩

/-- Claim C8: `extract_all_fields` is a pure function of its input text:
identical texts yield identical records. -/
theorem extract_all_fields_deterministic (t1 t2 : String) (h : t1 = t2) :
    PFE.extract_all_fields t1 = PFE.extract_all_fields t2 := by rw [h]

/-- Witness for C8 at a concrete input. -/
theorem extract_all_fields_deterministic_witness :
    PFE.extract_all_fields "Rx Amari 15 ml" = PFE.extract_all_fields "Rx Amari 15 ml" :=
  extract_all_fields_deterministic "Rx Amari 15 ml" "Rx Amari 15 ml" rfl

end MistralOCR
